import Mathlib

/-!
Verification of the fsn-gas-faucet service (src/run.mjs).

The repository is a single-file Express application exposing
`POST /api/v1/retrieve`.  We give a shallow embedding of the request
handler, the claim-record store operations (`Address.findOne`,
`Address.updateOne` with upsert), the WebSocket connection keeper
(`keepWeb3Alive`) and the rate limiter configuration, and prove the
specified properties about them.

External effects (MongoDB queries, chain RPC calls, transaction
signing/broadcast) are modelled by an `Oracle` record: each call either
succeeds, with the database reads computed from an explicit list of
claim records, or fails with an error message (a thrown JS `Error`,
which the handler catches at the top level).
-/

namespace FsnFaucet

/-- One document of the `Addresses` collection: a claim record, as
described by the data model (walletAddress, ipAddress, lastVisit).
Timestamps are milliseconds since the epoch. -/
structure ClaimRecord where
  walletAddress : String
  ipAddress : String
  lastVisit : Nat
deriving DecidableEq, Repr

/-- The claim-record collection, in natural (insertion) order. -/
abbrev Db := List ClaimRecord

/-- `moment().subtract("1", "days")`: one day in milliseconds. -/
def oneDayMs : Nat := 86400000

/-- A JavaScript value as it can appear in `req.body.walletAddress`:
absent/undefined, a string, or some non-string value (represented by a
number). -/
inductive JsVal where
  | undef
  | str (s : String)
  | num (n : Int)
deriving DecidableEq, Repr

/-- Message of the TypeError thrown by `undefined.toLowerCase()`. -/
def undefinedToLowerCaseMsg : String :=
  "Cannot read properties of undefined (reading \x27toLowerCase\x27)"

/-- Message of the TypeError thrown when `.toLowerCase` is called on a
non-string value. -/
def notAFunctionMsg : String :=
  "walletAddress.toLowerCase is not a function"

/-- ASCII lowercasing of one character, as `String.toLowerCase`
performs on the ASCII range (the only one relevant to addresses). -/
def jsLowerChar (c : Char) : Char :=
  if 65 ≤ c.toNat && c.toNat ≤ 90 then Char.ofNat (c.toNat + 32) else c

/-- `s.toLowerCase()` on a JavaScript string. -/
def jsLower (s : String) : String :=
  String.mk (s.data.map jsLowerChar)

/-- `walletAddress.toLowerCase()` (line 108): succeeds on strings,
throws a TypeError on undefined or non-string values. -/
def jsToLowerCase : JsVal → Except String String
  | .str s => .ok (jsLower s)
  | .undef => .error undefinedToLowerCaseMsg
  | .num _ => .error notAFunctionMsg

/-- A decimal digit or a lowercase hexadecimal letter. -/
def isHexLowerDigit (c : Char) : Bool :=
  (48 ≤ c.toNat && c.toNat ≤ 57) || (97 ≤ c.toNat && c.toNat ≤ 102)

/-- `web3.utils.isAddress` applied to the already-lowercased wallet
address (line 111): an optional `0x` followed by exactly 40 hex digits.
(The mixed-case checksum branch of the library is unreachable because the
handler lowercases the string first.) -/
def isAddress (s : String) : Bool :=
  let cs := s.data
  let core := if cs.take 2 == [Char.ofNat 48, Char.ofNat 120] then cs.drop 2 else cs
  core.length == 40 && core.all isHexLowerDigit

/-- The HTTP request as the handler sees it: `req.body` truthiness,
the `walletAddress` field of the parsed body, the `x-forwarded-for`
header and the socket address. -/
structure Request where
  hasBody : Bool
  walletAddress : JsVal
  xForwardedFor : Option String
  remoteAddress : String
deriving DecidableEq, Repr

/-- `req.headers["x-forwarded-for"] || req.socket.remoteAddress`
(line 116); an empty header string is falsy in JavaScript. -/
def requestIp (req : Request) : String :=
  match req.xForwardedFor with
  | some s => if s.data.isEmpty then req.remoteAddress else s
  | none => req.remoteAddress

/-- `Address.findOne({ walletAddress })` (lines 122-124): the first
record for this wallet address, from any IP and any time. -/
def findWalletRecord (db : Db) (w : String) : Option ClaimRecord :=
  db.find? (fun r => r.walletAddress == w)

/-- `Address.findOne({ ipAddress, lastVisit: { $gte: ONE_DAY } })`
(lines 126-129): the first record for this IP whose lastVisit is within
the last day. -/
def findIpRecentRecord (db : Db) (ip : String) (oneDayAgo : Nat) : Option ClaimRecord :=
  db.find? (fun r => r.ipAddress == ip && decide (oneDayAgo ≤ r.lastVisit))

/-- Does a record belong to the `(walletAddress, ipAddress)` pair? -/
def pairMatch (w ip : String) (r : ClaimRecord) : Bool :=
  r.walletAddress == w && r.ipAddress == ip

/-- `Address.updateOne({walletAddress, ipAddress}, {...}, {upsert:true})`
(lines 149-156): replace the first record matching both keys with the
refreshed document, or insert a new document when none matches. -/
def updateOneUpsert (db : Db) (w ip : String) (t : Nat) : Db :=
  match db with
  | [] => [⟨w, ip, t⟩]
  | r :: rest =>
    if pairMatch w ip r then ⟨w, ip, t⟩ :: rest
    else r :: updateOneUpsert rest w ip t

/-- Number of records of the collection keyed by a given
`(walletAddress, ipAddress)` pair. -/
def pairCount (db : Db) (w ip : String) : Nat :=
  db.countP (pairMatch w ip)

/-- The spec invariant: at most one claim record per pair. -/
def atMostOnePerPair (db : Db) : Prop :=
  ∀ w ip, pairCount db w ip ≤ 1

/-- The HTTP response of the handler: `res.json({txHash, status})`
(200), `res.status(400).send(message)`, or `res.sendStatus(400)` for
the missing-body guard. -/
inductive Response where
  | okJson (txHash : String) (status : String)
  | badRequest (msg : String)
  | sendStatus400
deriving DecidableEq, Repr

/-- HTTP status code of a response. -/
def Response.statusCode : Response → Nat
  | .okJson _ _ => 200
  | .badRequest _ => 400
  | .sendStatus400 => 400

def invalidAddressMsg : String := "Wallet address does not appear to be valid."
def walletClaimedMsg : String := "Address has already claimed gas."
def ipClaimedMsg : String := "Your IP has already claimed gas for an address recently."
def notFreshMsg : String := "Must be a new, unused address."

/-- Left-pad a string with zeros to a given length. -/
def padZeros (n : Nat) (s : String) : String :=
  String.mk (List.replicate (n - s.length) (Char.ofNat 48)) ++ s

/-- Drop trailing zero characters. -/
def dropTrailingZeros (s : String) : String :=
  String.mk (s.toList.reverse.dropWhile (fun c => c == Char.ofNat 48)).reverse

/-- Rendering of `Number(web3.utils.fromWei(balance))` in the non-zero
balance message: the balance in FSN (wei divided by 10^18) as a decimal
string.  This abstracts the exact JavaScript Number formatting; the
value is nonzero exactly when the wei balance is. -/
def balDisplay (wei : Nat) : String :=
  let intPart := wei / (10 ^ 18)
  let frac := wei % (10 ^ 18)
  if frac == 0 then toString intPart
  else toString intPart ++ "." ++ dropTrailingZeros (padZeros 18 (toString frac))

def nonzeroBalanceMsg (wei : Nat) : String :=
  "Address has a non-zero balance: " ++ balDisplay wei

def successStatusMsg (w : String) : String :=
  "Success. Gas will be sent to " ++ w ++ " shortly."

/-- Outcomes of the external calls made while serving one request.
Database reads are computed from the `Db` list when the corresponding
error field is `none`; `payout` is the result of `payoutFSN` (the
broadcast transaction hash on success); `upsertErr` injects a failure
of the `Address.updateOne` write. -/
structure Oracle where
  findWalletErr : Option String
  findIpErr : Option String
  balanceWei : Except String Nat
  txCount : Except String Nat
  payout : Except String String
  upsertErr : Option String
deriving Repr

/-- An oracle for a request on which every external call succeeds. -/
def Oracle.allOk (balWei txCnt : Nat) (txHash : String) : Oracle :=
  ⟨none, none, .ok balWei, .ok txCnt, .ok txHash, none⟩

/-- Result of one handled request: the response sent, the state of the
claim-record collection afterwards, and the number of payouts
broadcast during the request. -/
structure HandlerResult where
  resp : Response
  db : Db
  payouts : Nat
deriving DecidableEq, Repr

/-- The `POST /api/v1/retrieve` handler (lines 102-166).  Every thrown
error is caught by the top-level `catch` and becomes
`res.status(400).send(err.message)`. -/
def handleRetrieve (req : Request) (db : Db) (orc : Oracle) (now : Nat) : HandlerResult :=
  if req.hasBody = false then ⟨.sendStatus400, db, 0⟩
  else
    match jsToLowerCase req.walletAddress with
    | .error m => ⟨.badRequest m, db, 0⟩
    | .ok walletAddress =>
      if isAddress walletAddress = false then ⟨.badRequest invalidAddressMsg, db, 0⟩
      else
        match orc.findWalletErr with
        | some m => ⟨.badRequest m, db, 0⟩
        | none =>
          match orc.findIpErr with
          | some m => ⟨.badRequest m, db, 0⟩
          | none =>
            match orc.balanceWei with
            | .error m => ⟨.badRequest m, db, 0⟩
            | .ok balWei =>
              match orc.txCount with
              | .error m => ⟨.badRequest m, db, 0⟩
              | .ok txCount =>
                if (findWalletRecord db walletAddress).isSome then
                  ⟨.badRequest walletClaimedMsg, db, 0⟩
                else if (findIpRecentRecord db (requestIp req) (now - oneDayMs)).isSome then
                  ⟨.badRequest ipClaimedMsg, db, 0⟩
                else if txCount ≠ 0 then ⟨.badRequest notFreshMsg, db, 0⟩
                else if balWei ≠ 0 then ⟨.badRequest (nonzeroBalanceMsg balWei), db, 0⟩
                else
                  match orc.payout with
                  | .error m => ⟨.badRequest m, db, 0⟩
                  | .ok txHash =>
                    match orc.upsertErr with
                    | some m => ⟨.badRequest m, db, 1⟩
                    | none =>
                      ⟨.okJson txHash (successStatusMsg walletAddress),
                       updateOneUpsert db walletAddress (requestIp req) now, 1⟩

/-! ### Connection keeper (`keepWeb3Alive`, lines 60-76) -/

/-- The fixed reconnect delay of the keeper (line 72): 500 ms. -/
def reconnectDelayMs : Nat := 500

/-- Events emitted by the WebSocket provider. -/
inductive ProviderEvent where
  | connect
  | errorEv
  | endEv
deriving DecidableEq, Repr

/-- Effects performed by one event callback of `keepWeb3Alive`:
assignment to `web3._isConnected`, a forced `provider.disconnect()`,
and the delays of the reconnect attempts it schedules via
`setTimeout(keepWeb3Alive, ...)`. -/
structure KeeperEffects where
  setConnected : Option Bool
  disconnects : Bool
  scheduledReconnects : List Nat
deriving DecidableEq, Repr

/-- The event callbacks of the keeper (lines 62-73): connect marks the
connection live, error forces a disconnect, end marks it not-live and
schedules one reconnect after the fixed delay.  The callbacks read no
retry counter and no attempt history, so the effects depend on the
event alone. -/
def keeperOnEvent : ProviderEvent → KeeperEffects
  | .connect => ⟨some true, false, []⟩
  | .errorEv => ⟨none, true, []⟩
  | .endEv => ⟨some false, false, [reconnectDelayMs]⟩

/-- All reconnect delays scheduled over a sequence of provider events. -/
def keeperScheduled : List ProviderEvent → List Nat
  | [] => []
  | e :: es => (keeperOnEvent e).scheduledReconnects ++ keeperScheduled es

/-! ### Rate limiter (lines 22-25, 43)

Modelled from the spec: the `express-rate-limit` middleware itself is a
third-party dependency, not part of this repository; only its
configuration (`windowMs: 15 * 60 * 1000`, `max: 10`) and its
installation on all routes (`app.use(limiter)`) are.  The model is the
fixed-window counter of the library per source IP: each request increments
the hit counter of the IP, the counter resets when the window expires, and
a request is passed through exactly when the incremented count is at
most `max`; otherwise the limiter sends its standard limit-exceeded
response and the faucet handler is never reached. -/

def limiterWindowMs : Nat := 15 * 60 * 1000
def limiterMax : Nat := 10

/-- The standard limit-exceeded message of the rate limiter. -/
def limiterStandardResponse : String :=
  "Too many requests, please try again later."

/-- Per-IP limiter state: when the current window expires and how many
hits it has seen. -/
structure LimiterState where
  windowResetAt : Nat
  hits : Nat
deriving DecidableEq, Repr

/-- One request hitting the limiter at time `now`: reset an expired
window, count the hit, and report whether the request is let through. -/
def limiterHit (st : LimiterState) (now : Nat) : LimiterState × Bool :=
  let st1 := if st.windowResetAt ≤ now then ⟨now + limiterWindowMs, 0⟩ else st
  (⟨st1.windowResetAt, st1.hits + 1⟩, st1.hits + 1 ≤ limiterMax)

/-- Run the limiter over a sequence of request times, collecting the
accept/reject decision of each request. -/
def limiterRun (st : LimiterState) : List Nat → LimiterState × List Bool
  | [] => (st, [])
  | t :: ts =>
    let p := limiterHit st t
    let q := limiterRun p.1 ts
    (q.1, p.2 :: q.2)

/-- Outcome of a request to the service: stopped by the rate limiter,
or handled by the faucet endpoint. -/
inductive GateResult where
  | limited (msg : String)
  | handled (r : HandlerResult)
deriving DecidableEq, Repr

/-- A request to the service from one IP: the rate limiter runs first
(`app.use(limiter)` precedes the route); only an accepted request
reaches `handleRetrieve`. -/
def serviceRequest (st : LimiterState) (now : Nat) (req : Request) (db : Db)
    (orc : Oracle) : LimiterState × GateResult :=
  let p := limiterHit st now
  if p.2 then (p.1, .handled (handleRetrieve req db orc now))
  else (p.1, .limited limiterStandardResponse)

/-! ### Helper lemmas about the store operations -/

theorem pairMatch_self (w ip : String) (t : Nat) :
    pairMatch w ip ⟨w, ip, t⟩ = true := by
  simp [pairMatch]

theorem updateOneUpsert_no_match (db : Db) (w ip : String) (t : Nat)
    (h : ∀ r ∈ db, pairMatch w ip r = false) :
    updateOneUpsert db w ip t = db ++ [⟨w, ip, t⟩] := by
  induction db with
  | nil => rfl
  | cons r rest ih =>
    have hr := h r (List.mem_cons_self r rest)
    simp [updateOneUpsert, hr, ih (fun x hx => h x (List.mem_cons_of_mem r hx))]

theorem pairCount_updateOneUpsert_self (db : Db) (w ip : String) (t : Nat) :
    pairCount (updateOneUpsert db w ip t) w ip = max (pairCount db w ip) 1 := by
  induction db with
  | nil => simp [updateOneUpsert, pairCount, List.countP_cons, pairMatch_self]
  | cons r rest ih =>
    by_cases h : pairMatch w ip r = true
    · simp [updateOneUpsert, h, pairCount, List.countP_cons, pairMatch_self] at ih ⊢
      all_goals omega
    · simp [updateOneUpsert, h, pairCount, List.countP_cons] at ih ⊢
      all_goals omega

theorem pairCount_updateOneUpsert_other (db : Db) (w ip w2 ip2 : String) (t : Nat)
    (h : pairMatch w2 ip2 (⟨w, ip, t⟩ : ClaimRecord) = false) :
    pairCount (updateOneUpsert db w ip t) w2 ip2 = pairCount db w2 ip2 := by
  induction db with
  | nil => simp [updateOneUpsert, pairCount, List.countP_cons, h]
  | cons r rest ih =>
    by_cases hm : pairMatch w ip r = true
    · have hw : r.walletAddress = w ∧ r.ipAddress = ip := by
        simpa [pairMatch] using hm
      have hr : pairMatch w2 ip2 r = false := by
        have hgoal : pairMatch w2 ip2 r = (w == w2 && ip == ip2) := by
          simp [pairMatch, hw.1, hw.2]
        rw [hgoal]
        exact h
      simp [updateOneUpsert, hm, pairCount, List.countP_cons, h, hr]
    · simp [updateOneUpsert, hm, pairCount, List.countP_cons] at ih ⊢
      omega

theorem length_le_length_updateOneUpsert (db : Db) (w ip : String) (t : Nat) :
    db.length ≤ (updateOneUpsert db w ip t).length := by
  induction db with
  | nil => simp [updateOneUpsert]
  | cons r rest ih =>
    by_cases h : pairMatch w ip r = true <;>
      simp [updateOneUpsert, h] <;> omega

theorem length_updateOneUpsert_match (db : Db) (w ip : String) (t : Nat)
    (h : ∃ r ∈ db, pairMatch w ip r = true) :
    (updateOneUpsert db w ip t).length = db.length := by
  induction db with
  | nil => simp at h
  | cons r rest ih =>
    by_cases hm : pairMatch w ip r = true
    · simp [updateOneUpsert, hm]
    · have : ∃ x ∈ rest, pairMatch w ip x = true := by
        rcases h with ⟨x, hx, hpx⟩
        rcases List.mem_cons.1 hx with rfl | hx2
        · exact absurd hpx hm
        · exact ⟨x, hx2, hpx⟩
      simp [updateOneUpsert, hm, ih this]

theorem mem_updateOneUpsert_of_not_match (db : Db) (w ip : String) (t : Nat)
    (r : ClaimRecord) (hr : r ∈ db) (h : pairMatch w ip r = false) :
    r ∈ updateOneUpsert db w ip t := by
  induction db with
  | nil => simp at hr
  | cons x rest ih =>
    rcases List.mem_cons.1 hr with rfl | hr2
    · simp [updateOneUpsert, h]
    · by_cases hm : pairMatch w ip x = true
      · simp only [updateOneUpsert, hm, if_pos]
        exact List.mem_cons_of_mem _ hr2
      · simp only [updateOneUpsert, hm, if_neg, Bool.false_eq_true,
          not_false_iff]
        exact List.mem_cons_of_mem _ (ih hr2)

theorem mem_updateOneUpsert (db : Db) (w ip : String) (t : Nat)
    (r : ClaimRecord) (hr : r ∈ updateOneUpsert db w ip t) :
    r ∈ db ∨ r = ⟨w, ip, t⟩ := by
  induction db with
  | nil => simpa [updateOneUpsert] using hr
  | cons x rest ih =>
    by_cases hm : pairMatch w ip x = true
    · rw [show updateOneUpsert (x :: rest) w ip t = ⟨w, ip, t⟩ :: rest by
        simp [updateOneUpsert, hm]] at hr
      rcases List.mem_cons.1 hr with rfl | hr2
      · exact Or.inr rfl
      · exact Or.inl (List.mem_cons_of_mem x hr2)
    · rw [show updateOneUpsert (x :: rest) w ip t = x :: updateOneUpsert rest w ip t by
        simp [updateOneUpsert, hm]] at hr
      rcases List.mem_cons.1 hr with rfl | hr2
      · exact Or.inl (List.mem_cons_self _ rest)
      · rcases ih hr2 with h1 | h2
        · exact Or.inl (List.mem_cons_of_mem x h1)
        · exact Or.inr h2

/-- No record with this wallet address at all means no record for any
pair with this wallet address. -/
theorem no_pair_of_findWalletRecord_none (db : Db) (w : String)
    (h : findWalletRecord db w = none) :
    ∀ ip, ∀ r ∈ db, pairMatch w ip r = false := by
  intro ip r hr
  have := List.find?_eq_none.1 h r hr
  simp [pairMatch]
  intro hw
  simp [hw] at this

/-! ### Structural lemmas about the handler -/

theorem handleRetrieve_db_cases (req : Request) (db : Db) (orc : Oracle) (now : Nat) :
    (handleRetrieve req db orc now).db = db ∨
    ∃ w ip, (handleRetrieve req db orc now).db = updateOneUpsert db w ip now := by
  unfold handleRetrieve
  repeat' split
  all_goals first
    | exact Or.inl rfl
    | exact Or.inr ⟨_, _, rfl⟩

theorem handleRetrieve_statusCode_cases (req : Request) (db : Db) (orc : Oracle) (now : Nat) :
    (handleRetrieve req db orc now).resp.statusCode = 200 ∨
    (handleRetrieve req db orc now).resp.statusCode = 400 := by
  unfold handleRetrieve
  repeat' split
  all_goals first
    | exact Or.inl rfl
    | exact Or.inr rfl

/-- A `200` success response is only ever produced on the path where
the recent-IP lookup came back empty. -/
theorem handleRetrieve_ok_implies_ip_free (req : Request) (db : Db) (orc : Oracle)
    (now : Nat) (x y : String)
    (h : (handleRetrieve req db orc now).resp = .okJson x y) :
    findIpRecentRecord db (requestIp req) (now - oneDayMs) = none := by
  cases hip : findIpRecentRecord db (requestIp req) (now - oneDayMs) with
  | none => rfl
  | some r =>
    exfalso
    unfold handleRetrieve at h
    repeat' split at h
    all_goals simp_all

/-! ### Concrete fixtures for witnesses and counterexamples -/

def addrA : String := "0xaaaaaaaaaaaaaaaaaaaaaaaaaaaaaaaaaaaaaaaa"
def addrB : String := "0xbbbbbbbbbbbbbbbbbbbbbbbbbbbbbbbbbbbbbbbb"
def ipX : String := "203.0.113.7"
def reqA : Request := ⟨true, .str addrA, none, ipX⟩
def reqB : Request := ⟨true, .str addrB, none, ipX⟩
def reqZZ : Request := ⟨true, .str "0xzz", none, ipX⟩

/-! ### Claim theorems -/

/-- C1: for a request whose wallet address is valid, with no prior
claim record for the wallet, no claim record for the IP within the
last 24 hours, and zero on-chain transaction count and balance, the
handler performs exactly one payout, responds 200 with a JSON body
containing the transaction hash and a status string, and creates
exactly one claim record keyed by the (walletAddress, ipAddress)
pair. -/
theorem retrieve_first_time_success (req : Request) (db : Db) (orc : Oracle)
    (now : Nat) (s h : String)
    (hb : req.hasBody = true)
    (hw : req.walletAddress = .str s)
    (hv : isAddress (jsLower s) = true)
    (hnw : findWalletRecord db (jsLower s) = none)
    (hni : findIpRecentRecord db (requestIp req) (now - oneDayMs) = none)
    (hfw : orc.findWalletErr = none)
    (hfi : orc.findIpErr = none)
    (hbal : orc.balanceWei = .ok 0)
    (htc : orc.txCount = .ok 0)
    (hp : orc.payout = .ok h)
    (hu : orc.upsertErr = none) :
    handleRetrieve req db orc now =
      ⟨.okJson h (successStatusMsg (jsLower s)),
       db ++ [⟨(jsLower s), requestIp req, now⟩], 1⟩ ∧
    pairCount (handleRetrieve req db orc now).db (jsLower s) (requestIp req) = 1 := by
  have hnp := no_pair_of_findWalletRecord_none db (jsLower s) hnw (requestIp req)
  have hins : updateOneUpsert db (jsLower s) (requestIp req) now
      = db ++ [⟨(jsLower s), requestIp req, now⟩] :=
    updateOneUpsert_no_match db (jsLower s) (requestIp req) now hnp
  have hmain : handleRetrieve req db orc now =
      ⟨.okJson h (successStatusMsg (jsLower s)),
       db ++ [⟨(jsLower s), requestIp req, now⟩], 1⟩ := by
    simp [handleRetrieve, hb, hw, jsToLowerCase, hv, hfw, hfi, hbal, htc, hp,
      hu, hnw, hni, hins]
  refine ⟨hmain, ?_⟩
  rw [hmain]
  have h0 : pairCount db (jsLower s) (requestIp req) = 0 :=
    List.countP_eq_zero.2 (fun r hr => by simp [hnp r hr])
  simp only [pairCount, List.countP_append] at h0 ⊢
  simp [h0, List.countP_cons, pairMatch_self]

theorem retrieve_first_time_success_witness :
    handleRetrieve reqA [] (Oracle.allOk 0 0 "0xh1") 1000 =
      ⟨.okJson "0xh1" (successStatusMsg (jsLower addrA)),
       [] ++ [⟨(jsLower addrA), requestIp reqA, 1000⟩], 1⟩ ∧
    pairCount (handleRetrieve reqA [] (Oracle.allOk 0 0 "0xh1") 1000).db
      (jsLower addrA) (requestIp reqA) = 1 :=
  retrieve_first_time_success reqA [] (Oracle.allOk 0 0 "0xh1") 1000 addrA "0xh1"
    rfl rfl (by decide) (by decide) (by decide) rfl rfl rfl rfl rfl rfl

/-- C2: the eligibility checks run in a fixed priority order and the
first failing check determines the rejection: malformed address first,
then wallet-has-ever-claimed, then IP-claimed-within-24-hours, then
nonzero transaction count, then nonzero balance; later checks cannot
override an earlier failure, and no rejection performs a payout or
changes the store. -/
theorem retrieve_check_priority (req : Request) (db : Db) (orc : Oracle)
    (now : Nat) (s : String)
    (hb : req.hasBody = true) (hw : req.walletAddress = .str s) :
    (isAddress (jsLower s) = false →
      handleRetrieve req db orc now = ⟨.badRequest invalidAddressMsg, db, 0⟩) ∧
    (∀ b n, isAddress (jsLower s) = true → orc.findWalletErr = none →
      orc.findIpErr = none → orc.balanceWei = .ok b → orc.txCount = .ok n →
      (((findWalletRecord db (jsLower s)).isSome = true →
          handleRetrieve req db orc now = ⟨.badRequest walletClaimedMsg, db, 0⟩) ∧
       (findWalletRecord db (jsLower s) = none →
        (findIpRecentRecord db (requestIp req) (now - oneDayMs)).isSome = true →
          handleRetrieve req db orc now = ⟨.badRequest ipClaimedMsg, db, 0⟩) ∧
       (findWalletRecord db (jsLower s) = none →
        findIpRecentRecord db (requestIp req) (now - oneDayMs) = none → n ≠ 0 →
          handleRetrieve req db orc now = ⟨.badRequest notFreshMsg, db, 0⟩) ∧
       (findWalletRecord db (jsLower s) = none →
        findIpRecentRecord db (requestIp req) (now - oneDayMs) = none →
        n = 0 → b ≠ 0 →
          handleRetrieve req db orc now =
            ⟨.badRequest (nonzeroBalanceMsg b), db, 0⟩))) := by
  constructor
  · intro hv
    simp [handleRetrieve, hb, hw, jsToLowerCase, hv]
  · intro b n hv hfw hfi hbal htc
    refine ⟨?_, ?_, ?_, ?_⟩
    · intro hws
      simp [handleRetrieve, hb, hw, jsToLowerCase, hv, hfw, hfi, hbal, htc, hws]
    · intro hwn his
      simp [handleRetrieve, hb, hw, jsToLowerCase, hv, hfw, hfi, hbal, htc, hwn, his]
    · intro hwn hin hn
      simp [handleRetrieve, hb, hw, jsToLowerCase, hv, hfw, hfi, hbal, htc, hwn, hin, hn]
    · intro hwn hin hn hb0
      subst hn
      simp [handleRetrieve, hb, hw, jsToLowerCase, hv, hfw, hfi, hbal, htc, hwn, hin, hb0]

theorem retrieve_check_priority_witness :
    handleRetrieve reqZZ [] (Oracle.allOk 5 7 "0xh2") 1000 =
      ⟨.badRequest invalidAddressMsg, [], 0⟩ :=
  (retrieve_check_priority reqZZ [] (Oracle.allOk 5 7 "0xh2") 1000 "0xzz"
    rfl rfl).1 (by decide)

/-- C4: for a wallet address with a prior claim record of any age, the
request is rejected with the already-claimed error and the store (and
hence the existing record and its lastVisit timestamp) is unchanged. -/
theorem retrieve_wallet_already_claimed (req : Request) (db : Db) (orc : Oracle)
    (now : Nat) (s : String) (rec : ClaimRecord) (b n : Nat)
    (hb : req.hasBody = true) (hw : req.walletAddress = .str s)
    (hv : isAddress (jsLower s) = true)
    (hrec : findWalletRecord db (jsLower s) = some rec)
    (hfw : orc.findWalletErr = none) (hfi : orc.findIpErr = none)
    (hbal : orc.balanceWei = .ok b) (htc : orc.txCount = .ok n) :
    handleRetrieve req db orc now = ⟨.badRequest walletClaimedMsg, db, 0⟩ ∧
    (handleRetrieve req db orc now).db = db := by
  have hmain : handleRetrieve req db orc now = ⟨.badRequest walletClaimedMsg, db, 0⟩ := by
    simp [handleRetrieve, hb, hw, jsToLowerCase, hv, hfw, hfi, hbal, htc, hrec]
  exact ⟨hmain, by rw [hmain]⟩

theorem retrieve_wallet_already_claimed_witness :
    handleRetrieve reqA [⟨addrA, "198.51.100.9", 3⟩] (Oracle.allOk 0 0 "0xh3") 999999999 =
      ⟨.badRequest walletClaimedMsg, [⟨addrA, "198.51.100.9", 3⟩], 0⟩ ∧
    (handleRetrieve reqA [⟨addrA, "198.51.100.9", 3⟩] (Oracle.allOk 0 0 "0xh3") 999999999).db
      = [⟨addrA, "198.51.100.9", 3⟩] :=
  retrieve_wallet_already_claimed reqA [⟨addrA, "198.51.100.9", 3⟩]
    (Oracle.allOk 0 0 "0xh3") 999999999 addrA ⟨addrA, "198.51.100.9", 3⟩ 0 0
    rfl rfl (by decide) (by decide) rfl rfl rfl rfl

/-- C3 counterexample: the claim says the second request from the same
IP within 24 hours returns the IP-already-claimed error regardless of
whether the second wallet address string is valid.  Concretely: the
first request succeeds; a second request from the same IP with the
distinct, invalid wallet string "0xzz" is rejected with the
invalid-address error, not the IP-already-claimed error, because the
validity check runs before the IP lookup. -/
theorem second_request_invalid_wallet_counterexample :
    (handleRetrieve reqA [] (Oracle.allOk 0 0 "0xh1") 1000).resp
      = .okJson "0xh1" (successStatusMsg (jsLower addrA)) ∧
    "0xzz" ≠ addrA ∧
    (handleRetrieve reqZZ (handleRetrieve reqA [] (Oracle.allOk 0 0 "0xh1") 1000).db
        (Oracle.allOk 0 0 "0xh2") 2000).resp = .badRequest invalidAddressMsg ∧
    Response.badRequest invalidAddressMsg ≠ Response.badRequest ipClaimedMsg := by
  refine ⟨by decide, by decide, by decide, by decide⟩

/-- C3 (amended): for a second request from the same IP within 24
hours of an existing claim record, the response is always 400; it
carries the IP-already-claimed message when the second wallet address
string is valid and has no prior wallet claim record, and the
invalid-address message when the string is invalid. -/
theorem retrieve_second_ip_within_day (db : Db) (req2 : Request) (orc : Oracle)
    (t2 : Nat) (s2 : String) (rec : ClaimRecord)
    (hb : req2.hasBody = true) (hw : req2.walletAddress = .str s2)
    (hmem : rec ∈ db) (hip : rec.ipAddress = requestIp req2)
    (ht : t2 - oneDayMs ≤ rec.lastVisit) :
    (handleRetrieve req2 db orc t2).resp.statusCode = 400 ∧
    (isAddress (jsLower s2) = false →
      (handleRetrieve req2 db orc t2).resp = .badRequest invalidAddressMsg) ∧
    (∀ b n, isAddress (jsLower s2) = true →
      findWalletRecord db (jsLower s2) = none →
      orc.findWalletErr = none → orc.findIpErr = none →
      orc.balanceWei = .ok b → orc.txCount = .ok n →
      (handleRetrieve req2 db orc t2).resp = .badRequest ipClaimedMsg) := by
  have hsome : findIpRecentRecord db (requestIp req2) (t2 - oneDayMs) ≠ none := by
    intro hnone
    have hall : ∀ x ∈ db, ¬((fun r => r.ipAddress == requestIp req2 &&
        decide (t2 - oneDayMs ≤ r.lastVisit)) x = true) :=
      List.find?_eq_none.1 hnone
    have hrec := hall rec hmem
    simp [hip, ht] at hrec
  refine ⟨?_, ?_, ?_⟩
  · rcases handleRetrieve_statusCode_cases req2 db orc t2 with h2 | h2
    · exfalso
      cases hres : (handleRetrieve req2 db orc t2).resp with
      | okJson x y =>
        exact hsome (handleRetrieve_ok_implies_ip_free req2 db orc t2 x y hres)
      | badRequest m => rw [hres] at h2; simp [Response.statusCode] at h2
      | sendStatus400 => rw [hres] at h2; simp [Response.statusCode] at h2
    · exact h2
  · intro hv
    simp [handleRetrieve, hb, hw, jsToLowerCase, hv]
  · intro b n hv hwn hfw hfi hbal htc
    have his : (findIpRecentRecord db (requestIp req2) (t2 - oneDayMs)).isSome = true :=
      Option.isSome_iff_ne_none.2 hsome
    simp [handleRetrieve, hb, hw, jsToLowerCase, hv, hwn, hfw, hfi, hbal, htc, his]

theorem retrieve_second_ip_within_day_witness :
    (handleRetrieve reqB [⟨jsLower addrA, ipX, 1000⟩] (Oracle.allOk 0 0 "0xh2") 2000).resp
      = .badRequest ipClaimedMsg :=
  (retrieve_second_ip_within_day [⟨jsLower addrA, ipX, 1000⟩] reqB
      (Oracle.allOk 0 0 "0xh2") 2000 addrB ⟨jsLower addrA, ipX, 1000⟩
      rfl rfl (by decide) (by decide) (by decide)).2.2 0 0
    (by decide) (by decide) rfl rfl rfl rfl

/-- C5: the claim-record collection holds at most one record per
(walletAddress, ipAddress) pair after any request when it did before;
an upsert for a pair with no record appends exactly one record; an
upsert for a pair with an existing record keeps the length, keeps the
pair count, replaces only the first matching record by the refreshed
one and keeps every non-matching record; and no request ever shrinks
the collection. -/
theorem claim_store_invariants (req : Request) (db : Db) (orc : Oracle) (now : Nat)
    (w ip : String) (t : Nat) :
    (atMostOnePerPair db → atMostOnePerPair (handleRetrieve req db orc now).db) ∧
    db.length ≤ (handleRetrieve req db orc now).db.length ∧
    (pairCount db w ip = 0 →
      updateOneUpsert db w ip t = db ++ [⟨w, ip, t⟩] ∧
      pairCount (updateOneUpsert db w ip t) w ip = 1) ∧
    ((∃ r ∈ db, pairMatch w ip r = true) →
      (updateOneUpsert db w ip t).length = db.length ∧
      pairCount (updateOneUpsert db w ip t) w ip = pairCount db w ip ∧
      (∀ r ∈ db, pairMatch w ip r = false → r ∈ updateOneUpsert db w ip t) ∧
      (∀ r ∈ updateOneUpsert db w ip t, r ∈ db ∨ r = ⟨w, ip, t⟩)) := by
  have hpres : ∀ w0 ip0 t0, atMostOnePerPair db →
      atMostOnePerPair (updateOneUpsert db w0 ip0 t0) := by
    intro w0 ip0 t0 hdb w1 ip1
    by_cases hsame : pairMatch w1 ip1 (⟨w0, ip0, t0⟩ : ClaimRecord) = true
    · have heq : w0 = w1 ∧ ip0 = ip1 := by simpa [pairMatch] using hsame
      rcases heq with ⟨rfl, rfl⟩
      rw [pairCount_updateOneUpsert_self]
      have := hdb w0 ip0
      omega
    · rw [pairCount_updateOneUpsert_other db w0 ip0 w1 ip1 t0 (by simpa using hsame)]
      exact hdb w1 ip1
  refine ⟨?_, ?_, ?_, ?_⟩
  · intro hdb
    rcases handleRetrieve_db_cases req db orc now with hcase | ⟨w0, ip0, hcase⟩
    · rw [hcase]; exact hdb
    · rw [hcase]; exact hpres w0 ip0 now hdb
  · rcases handleRetrieve_db_cases req db orc now with hcase | ⟨w0, ip0, hcase⟩
    · rw [hcase]
    · rw [hcase]; exact length_le_length_updateOneUpsert db w0 ip0 now
  · intro h0
    have hnm : ∀ r ∈ db, pairMatch w ip r = false := by
      intro r hr
      by_contra hcon
      have : 0 < pairCount db w ip :=
        List.countP_pos.2 ⟨r, hr, by simpa using hcon⟩
      omega
    refine ⟨updateOneUpsert_no_match db w ip t hnm, ?_⟩
    rw [pairCount_updateOneUpsert_self, h0]
    omega
  · intro hex
    have hpos : 0 < pairCount db w ip := List.countP_pos.2 (by
      rcases hex with ⟨r, hr, hpr⟩
      exact ⟨r, hr, by simpa using hpr⟩)
    refine ⟨length_updateOneUpsert_match db w ip t hex, ?_, ?_, ?_⟩
    · rw [pairCount_updateOneUpsert_self]
      omega
    · intro r hr hnm
      exact mem_updateOneUpsert_of_not_match db w ip t r hr hnm
    · intro r hr
      exact mem_updateOneUpsert db w ip t r hr

theorem claim_store_invariants_witness :
    (atMostOnePerPair [] →
      atMostOnePerPair (handleRetrieve reqA [] (Oracle.allOk 0 0 "0xh5") 7).db) ∧
    List.length ([] : Db) ≤ (handleRetrieve reqA [] (Oracle.allOk 0 0 "0xh5") 7).db.length ∧
    (pairCount [] addrA ipX = 0 →
      updateOneUpsert [] addrA ipX 7 = [] ++ [⟨addrA, ipX, 7⟩] ∧
      pairCount (updateOneUpsert [] addrA ipX 7) addrA ipX = 1) ∧
    ((∃ r ∈ ([] : Db), pairMatch addrA ipX r = true) →
      (updateOneUpsert [] addrA ipX 7).length = List.length ([] : Db) ∧
      pairCount (updateOneUpsert [] addrA ipX 7) addrA ipX = pairCount [] addrA ipX ∧
      (∀ r ∈ ([] : Db), pairMatch addrA ipX r = false →
        r ∈ updateOneUpsert [] addrA ipX 7) ∧
      (∀ r ∈ updateOneUpsert [] addrA ipX 7, r ∈ ([] : Db) ∨ r = ⟨addrA, ipX, 7⟩)) :=
  claim_store_invariants reqA [] (Oracle.allOk 0 0 "0xh5") 7 addrA ipX 7

/-- C6: every failure inside the request handler — address validation,
either database lookup, either chain query, the payout, or the
claim-record write — is caught at the top level and becomes a 400
response whose body is the error message; and the handler never
produces a status code other than 200 or 400. -/
theorem retrieve_error_catchall (req : Request) (db : Db) (orc : Oracle)
    (now : Nat) (s : String)
    (hb : req.hasBody = true) (hw : req.walletAddress = .str s) :
    ((handleRetrieve req db orc now).resp.statusCode = 200 ∨
     (handleRetrieve req db orc now).resp.statusCode = 400) ∧
    (isAddress (jsLower s) = false →
      handleRetrieve req db orc now = ⟨.badRequest invalidAddressMsg, db, 0⟩) ∧
    (∀ m, isAddress (jsLower s) = true → orc.findWalletErr = some m →
      handleRetrieve req db orc now = ⟨.badRequest m, db, 0⟩) ∧
    (∀ m, isAddress (jsLower s) = true → orc.findWalletErr = none →
      orc.findIpErr = some m →
      handleRetrieve req db orc now = ⟨.badRequest m, db, 0⟩) ∧
    (∀ m, isAddress (jsLower s) = true → orc.findWalletErr = none →
      orc.findIpErr = none → orc.balanceWei = .error m →
      handleRetrieve req db orc now = ⟨.badRequest m, db, 0⟩) ∧
    (∀ m b, isAddress (jsLower s) = true → orc.findWalletErr = none →
      orc.findIpErr = none → orc.balanceWei = .ok b → orc.txCount = .error m →
      handleRetrieve req db orc now = ⟨.badRequest m, db, 0⟩) ∧
    (∀ m, isAddress (jsLower s) = true → orc.findWalletErr = none →
      orc.findIpErr = none → orc.balanceWei = .ok 0 → orc.txCount = .ok 0 →
      findWalletRecord db (jsLower s) = none →
      findIpRecentRecord db (requestIp req) (now - oneDayMs) = none →
      orc.payout = .error m →
      handleRetrieve req db orc now = ⟨.badRequest m, db, 0⟩) ∧
    (∀ m h, isAddress (jsLower s) = true → orc.findWalletErr = none →
      orc.findIpErr = none → orc.balanceWei = .ok 0 → orc.txCount = .ok 0 →
      findWalletRecord db (jsLower s) = none →
      findIpRecentRecord db (requestIp req) (now - oneDayMs) = none →
      orc.payout = .ok h → orc.upsertErr = some m →
      handleRetrieve req db orc now = ⟨.badRequest m, db, 1⟩) := by
  refine ⟨handleRetrieve_statusCode_cases req db orc now, ?_, ?_, ?_, ?_, ?_, ?_, ?_⟩
  · intro hv
    simp [handleRetrieve, hb, hw, jsToLowerCase, hv]
  · intro m hv hfw
    simp [handleRetrieve, hb, hw, jsToLowerCase, hv, hfw]
  · intro m hv hfw hfi
    simp [handleRetrieve, hb, hw, jsToLowerCase, hv, hfw, hfi]
  · intro m hv hfw hfi hbal
    simp [handleRetrieve, hb, hw, jsToLowerCase, hv, hfw, hfi, hbal]
  · intro m b hv hfw hfi hbal htc
    simp [handleRetrieve, hb, hw, jsToLowerCase, hv, hfw, hfi, hbal, htc]
  · intro m hv hfw hfi hbal htc hwn hin hp
    simp [handleRetrieve, hb, hw, jsToLowerCase, hv, hfw, hfi, hbal, htc, hwn, hin, hp]
  · intro m h hv hfw hfi hbal htc hwn hin hp hu
    simp [handleRetrieve, hb, hw, jsToLowerCase, hv, hfw, hfi, hbal, htc, hwn,
      hin, hp, hu]

theorem retrieve_error_catchall_witness :
    handleRetrieve reqA [] ⟨some "connection to db lost", none, .ok 0, .ok 0,
        .ok "0xh6", none⟩ 50 =
      ⟨.badRequest "connection to db lost", [], 0⟩ :=
  (retrieve_error_catchall reqA [] ⟨some "connection to db lost", none, .ok 0,
      .ok 0, .ok "0xh6", none⟩ 50 addrA rfl rfl).2.2.1
    "connection to db lost" (by decide) rfl

/-- C7: the connection keeper marks the connection live on connect,
forces a disconnect on error, and on end marks the connection not-live
and schedules exactly one reconnect after the fixed 500 ms delay; over
any sequence of provider events the scheduled reconnects are one per
end event, all with the same fixed delay, with no backoff growth and no
retry limit. -/
theorem keeper_reconnects_forever :
    keeperOnEvent .connect = ⟨some true, false, []⟩ ∧
    keeperOnEvent .errorEv = ⟨none, true, []⟩ ∧
    keeperOnEvent .endEv = ⟨some false, false, [reconnectDelayMs]⟩ ∧
    ∀ events : List ProviderEvent,
      keeperScheduled events =
        List.replicate (events.countP (fun e => e == .endEv)) reconnectDelayMs := by
  refine ⟨rfl, rfl, rfl, ?_⟩
  intro events
  induction events with
  | nil => rfl
  | cons e es ih =>
    cases e <;>
      simp [keeperScheduled, keeperOnEvent, List.countP_cons, ih, List.replicate_succ]

/-- C9: when the payout broadcast succeeds but the claim-record upsert
fails, the caller still receives a 400 response carrying the write
error, exactly one payout was performed, no claim record was written,
and a retry of the same request against the unchanged store passes all
eligibility checks and pays out again. -/
theorem payout_then_write_failure (req : Request) (db : Db) (orc : Oracle)
    (now : Nat) (s h m : String)
    (hb : req.hasBody = true) (hw : req.walletAddress = .str s)
    (hv : isAddress (jsLower s) = true)
    (hnw : findWalletRecord db (jsLower s) = none)
    (hni : findIpRecentRecord db (requestIp req) (now - oneDayMs) = none)
    (hfw : orc.findWalletErr = none) (hfi : orc.findIpErr = none)
    (hbal : orc.balanceWei = .ok 0) (htc : orc.txCount = .ok 0)
    (hp : orc.payout = .ok h) (hu : orc.upsertErr = some m) :
    handleRetrieve req db orc now = ⟨.badRequest m, db, 1⟩ ∧
    pairCount db (jsLower s) (requestIp req) = 0 ∧
    (∀ orc2 : Oracle, ∀ h2, orc2.findWalletErr = none → orc2.findIpErr = none →
      orc2.balanceWei = .ok 0 → orc2.txCount = .ok 0 → orc2.payout = .ok h2 →
      orc2.upsertErr = none →
      (handleRetrieve req db orc2 now).resp = .okJson h2 (successStatusMsg (jsLower s)) ∧
      (handleRetrieve req db orc2 now).payouts = 1) := by
  have hnp := no_pair_of_findWalletRecord_none db (jsLower s) hnw (requestIp req)
  refine ⟨?_, ?_, ?_⟩
  · simp [handleRetrieve, hb, hw, jsToLowerCase, hv, hfw, hfi, hbal, htc, hnw,
      hni, hp, hu]
  · exact List.countP_eq_zero.2 (fun r hr => by simp [hnp r hr])
  · intro orc2 h2 hfw2 hfi2 hbal2 htc2 hp2 hu2
    constructor <;>
      simp [handleRetrieve, hb, hw, jsToLowerCase, hv, hfw2, hfi2, hbal2, htc2,
        hnw, hni, hp2, hu2]

theorem payout_then_write_failure_witness :
    handleRetrieve reqA [] ⟨none, none, .ok 0, .ok 0, .ok "0xh7",
        some "write to collection failed"⟩ 60 =
      ⟨.badRequest "write to collection failed", [], 1⟩ ∧
    pairCount [] (jsLower addrA) (requestIp reqA) = 0 ∧
    (∀ orc2 : Oracle, ∀ h2, orc2.findWalletErr = none → orc2.findIpErr = none →
      orc2.balanceWei = .ok 0 → orc2.txCount = .ok 0 → orc2.payout = .ok h2 →
      orc2.upsertErr = none →
      (handleRetrieve reqA [] orc2 60).resp = .okJson h2 (successStatusMsg (jsLower addrA)) ∧
      (handleRetrieve reqA [] orc2 60).payouts = 1) :=
  payout_then_write_failure reqA [] ⟨none, none, .ok 0, .ok 0, .ok "0xh7",
      some "write to collection failed"⟩ 60 addrA "0xh7" "write to collection failed"
    rfl rfl (by decide) rfl rfl rfl rfl rfl rfl rfl rfl

/-- C10: for a parsed request whose body lacks the walletAddress field
(or whose walletAddress is not a string), the missing-body guard does
not trigger; the call to toLowerCase on the value throws a TypeError
which the top-level catch converts into a 400 response carrying the
runtime type error message, not the faucet validation message. -/
theorem missing_wallet_field_type_error (req : Request) (db : Db) (orc : Oracle)
    (now : Nat) (hb : req.hasBody = true) :
    (req.walletAddress = .undef →
      handleRetrieve req db orc now = ⟨.badRequest undefinedToLowerCaseMsg, db, 0⟩) ∧
    (∀ n : Int, req.walletAddress = .num n →
      handleRetrieve req db orc now = ⟨.badRequest notAFunctionMsg, db, 0⟩) ∧
    (handleRetrieve req db orc now).resp ≠ .sendStatus400 ∧
    undefinedToLowerCaseMsg ≠ invalidAddressMsg := by
  refine ⟨?_, ?_, ?_, by decide⟩
  · intro hwu
    simp [handleRetrieve, hb, hwu, jsToLowerCase]
  · intro n hwn
    simp [handleRetrieve, hb, hwn, jsToLowerCase]
  · simp only [handleRetrieve, hb]
    repeat' split
    all_goals simp_all

theorem missing_wallet_field_type_error_witness :
    handleRetrieve ⟨true, .undef, none, ipX⟩ [] (Oracle.allOk 0 0 "0xh8") 70 =
      ⟨.badRequest undefinedToLowerCaseMsg, [], 0⟩ :=
  (missing_wallet_field_type_error ⟨true, .undef, none, ipX⟩ []
      (Oracle.allOk 0 0 "0xh8") 70 rfl).1 rfl

/-- Accepted requests among `limiterRun st ts` never exceed what is
left of the window budget. -/
theorem limiterRun_count_bound (ts : List Nat) : ∀ st : LimiterState,
    (∀ t ∈ ts, t < st.windowResetAt) →
    (limiterRun st ts).2.count true ≤ limiterMax - st.hits := by
  induction ts with
  | nil =>
    intro st hts
    simp [limiterRun]
  | cons t ts ih =>
    intro st hts
    have hlt : t < st.windowResetAt := hts t (List.mem_cons_self t ts)
    have hreset : ¬ st.windowResetAt ≤ t := by omega
    have hrest : ∀ u ∈ ts, u < (⟨st.windowResetAt, st.hits + 1⟩ : LimiterState).windowResetAt :=
      fun u hu => hts u (List.mem_cons_of_mem t hu)
    have hih := ih ⟨st.windowResetAt, st.hits + 1⟩ hrest
    by_cases hacc : st.hits + 1 ≤ limiterMax
    · simp only [limiterRun, limiterHit, if_neg hreset, List.count_cons,
        decide_eq_true hacc] at hih ⊢
      simp at hih ⊢
      omega
    · simp only [limiterRun, limiterHit, if_neg hreset, List.count_cons] at hih ⊢
      have : decide (st.hits + 1 ≤ limiterMax) = false := by
        simpa using hacc
      simp [this] at hih ⊢
      omega

/-- C8: at most 10 requests per source IP are accepted in one
15-minute window (spec-modelled limiter semantics with the configuration
from the repository), and a request arriving when the window budget is spent
receives the standard limit-exceeded response of the rate limiter instead of
reaching the faucet handler. -/
theorem rate_limit_per_window (st : LimiterState) (now : Nat) (req : Request)
    (db : Db) (orc : Oracle) (ts : List Nat) :
    (st.hits = 0 → (∀ t ∈ ts, t < st.windowResetAt) →
      (limiterRun st ts).2.count true ≤ limiterMax) ∧
    (limiterMax ≤ st.hits → now < st.windowResetAt →
      serviceRequest st now req db orc =
        (⟨st.windowResetAt, st.hits + 1⟩, .limited limiterStandardResponse)) := by
  constructor
  · intro h0 hts
    have := limiterRun_count_bound ts st hts
    omega
  · intro hfull hnow
    have hreset : ¬ st.windowResetAt ≤ now := by omega
    have hrej : decide (st.hits + 1 ≤ limiterMax) = false := by
      simp
      omega
    simp [serviceRequest, limiterHit, if_neg hreset, hrej]

theorem rate_limit_per_window_witness :
    serviceRequest ⟨900000, 10⟩ 5 reqA [] (Oracle.allOk 0 0 "0xh9") =
      (⟨900000, 11⟩, .limited limiterStandardResponse) :=
  (rate_limit_per_window ⟨900000, 10⟩ 5 reqA [] (Oracle.allOk 0 0 "0xh9")
      [1, 2, 3]).2 (by decide) (by decide)

end FsnFaucet
